import Mathlib

/-!
Verification of the financial-modelling core of the
`2025-Australia-s-10-Largest-ETFs` repository.

The Python source (`financial_modelling/models.py`, `metrics.py`,
`optimization.py`) is shallowly embedded below.  Price and return series
are `List ℚ` (exact rationals standing for the float values), a return
matrix is a `List (List ℚ)` of time rows over a fixed asset ordering, and
pandas/numpy float results that can be non-finite (`NaN`, `±inf`) are
modelled with `Option`/`Except`: `none` stands for a non-finite float.
Square roots and real powers are modelled with `Real.sqrt`/`Real.rpow`.
The external SLSQP solver (`scipy.optimize.minimize`) is modelled by a
record holding the fields of its result object that the source reads.
-/

namespace FinModel

/-- Sum of pairwise products, `np.sum(a * b)` / row-times-weights dot
product for aligned lists. -/
def dot (a b : List ℚ) : ℚ :=
  (List.zipWith (· * ·) a b).sum

/-- `series.mean()` as the raw quotient sum/length.  For an empty series
pandas yields NaN; callers that can see an empty series go through
`mean?` instead, and every theorem below that touches `meanD` keeps the
series provably non-empty. -/
def meanD {α : Type*} [DivisionRing α] (xs : List α) : α :=
  xs.sum / (xs.length : α)

/-- `series.mean()` with the empty case made explicit: `none` models the
NaN pandas returns on an empty series. -/
def mean? {α : Type*} [DivisionRing α] (xs : List α) : Option α :=
  if xs.isEmpty then none else some (meanD xs)

/-- Sample variance with `ddof = 1` (the pandas/numpy `.std()`/`.cov()`
convention), as a raw quotient.  For fewer than two observations pandas
yields NaN; callers guard on the length before using this value. -/
def sampleVarD (xs : List ℚ) : ℚ :=
  (xs.map (fun x => (x - meanD xs) ^ 2)).sum / ((xs.length : ℚ) - 1)

/-- `series.min()` with pandas semantics on the non-NaN entries: `none`
only for an empty list. -/
def minD (xs : List ℚ) : Option ℚ :=
  match xs with
  | [] => none
  | x :: rest => some (rest.foldl min x)

end FinModel

namespace FinModel

section Percentile

variable {α : Type*} [LinearOrderedField α] [FloorRing α]
variable [DecidableRel ((· ≤ ·) : α → α → Prop)]

/-- `np.percentile(xs, q)` with the default linear interpolation: sort
ascending, take `pos = (q/100)·(n-1)`, and interpolate between the two
neighbouring order statistics.  `none` models the error numpy raises on
an empty array.  When `⌊pos⌋ + 1` runs past the end (only possible at
`q = 100`, where the interpolation weight is `0`) the second `getD`
falls back to the lower order statistic, matching numpy's clamping. -/
def percentile (xs : List α) (q : α) : Option α :=
  if xs.isEmpty then none
  else
    let s := xs.insertionSort (· ≤ ·)
    let n := s.length
    let pos : α := q / 100 * ((n : α) - 1)
    let i : ℕ := ⌊pos⌋.toNat
    let lo := s.getD i 0
    let hi := s.getD (i + 1) lo
    some (lo + (pos - (i : α)) * (hi - lo))

end Percentile

/-! ## `models.py` — `FinancialModel` -/

/-- Python exceptions that the embedded code can raise. -/
inductive PyErr : Type
  | indexError
  deriving DecidableEq, Repr

/-- `prices.pct_change().dropna()`: simple returns `p_t / p_{t-1} - 1`.
(The source never feeds a zero price; a zero previous price would give
`±inf` in pandas, while `ℚ` division yields `0`.) -/
def pctChange (prices : List ℚ) : List ℚ :=
  List.zipWith (fun prev cur => cur / prev - 1) prices prices.tail

/-- `FinancialModel.calculate_annualized_return`.  The source evaluates
`prices.iloc[-1] / prices.iloc[0]` *before* its `years == 0` guard, so an
empty series raises `IndexError` there; `years = len(prices)/252` is `0`
exactly when the series is empty, making the guard dead code.  On a
non-empty series the result is `(P_last/P_first)^(252/n) - 1`. -/
noncomputable def calculateAnnualizedReturn (prices : List ℚ) : Except PyErr ℝ :=
  match prices with
  | [] => .error .indexError
  | p₀ :: rest =>
      let totalReturn : ℚ := (p₀ :: rest).getLast (by simp) / p₀ - 1
      let years : ℚ := ((prices.length : ℚ)) / 252
      if years = 0 then .ok 0
      else .ok ((1 + (totalReturn : ℝ)) ^ ((1 / years : ℚ) : ℝ) - 1)

/-- `FinancialModel.calculate_sharpe_ratio` with both arguments supplied
(the scalar path: the `isinstance(…, pd.Series)` branches are no-ops for
scalars).  The `volatility == 0` guard returns `0`. -/
def calculateSharpeRatio (riskFreeRate annualizedReturn volatility : ℚ) : ℚ :=
  if volatility = 0 then 0
  else (annualizedReturn - riskFreeRate) / volatility

/-- `FinancialModel.calculate_sortino_ratio` with the annualized return
supplied, over the model's return series.  `downside.std()` is NaN when
fewer than two sub-target returns exist, the `== 0` guard then fails,
and the division propagates NaN: modelled by `none`.  With at least two
sub-target returns the guard fires exactly when their sample variance is
`0`. -/
noncomputable def calculateSortinoRatio (annualizedReturn targetReturn : ℚ)
    (returns : List ℚ) : Option ℝ :=
  let downside := returns.filter (· < targetReturn)
  if downside.length < 2 then none
  else if sampleVarD downside = 0 then some 0
  else some (((annualizedReturn - targetReturn : ℚ) : ℝ) /
      (Real.sqrt (sampleVarD downside) * Real.sqrt 252))

/-- Running maximum of a list given the maximum `m` of an already-seen
prefix: models `series.expanding().max()` after its first entry. -/
def runningMaxFrom (m : ℚ) : List ℚ → List ℚ
  | [] => []
  | x :: xs => max m x :: runningMaxFrom (max m x) xs

/-- `series.expanding().max()`. -/
def runningMax : List ℚ → List ℚ
  | [] => []
  | x :: xs => x :: runningMaxFrom x xs

/-- `(1 + returns).cumprod()`. -/
def cumprodOnePlus : List ℚ → List ℚ
  | [] => []
  | r :: rs => (1 + r) :: (cumprodOnePlus rs).map (fun c => (1 + r) * c)

/-- `FinancialModel.calculate_max_drawdown`: drawdown series
`(cum - runmax)/runmax` followed by `.min()`.  A zero running maximum
(which forces the cumulative value there to be `0` as well, since a
cumulative product that reaches `0` stays `0`) gives the float `0/0`,
i.e. NaN, modelled by `none`; pandas `.min()` skips NaN entries and
returns NaN only when every entry is NaN. -/
def calculateMaxDrawdown (returns : List ℚ) : Option ℚ :=
  let cumulative := cumprodOnePlus returns
  let runMax := runningMax cumulative
  let drawdown : List (Option ℚ) :=
    List.zipWith (fun c m => if m = 0 then none else some ((c - m) / m))
      cumulative runMax
  minD (drawdown.filterMap id)

/-! ## `models.py` — `PortfolioModel` -/

/-- Number of asset columns of a (rectangular) return matrix whose rows
are time periods. -/
def numAssets (returnsMatrix : List (List ℚ)) : ℕ :=
  (returnsMatrix.headD []).length

/-- Column means: `returns.mean()` per asset. -/
def colMeans (returnsMatrix : List (List ℚ)) : List ℚ :=
  (List.range (numAssets returnsMatrix)).map
    (fun j => meanD (returnsMatrix.map (fun row => row.getD j 0)))

/-- One entry of the sample covariance matrix `returns.cov()`
(`ddof = 1`).  A single-row matrix gives NaN in pandas; every use below
either fixes concrete inputs or assumes at least two rows. -/
def covEntry (returnsMatrix : List (List ℚ)) (i j : ℕ) : ℚ :=
  let mi := (colMeans returnsMatrix).getD i 0
  let mj := (colMeans returnsMatrix).getD j 0
  (returnsMatrix.map
      (fun row => (row.getD i 0 - mi) * (row.getD j 0 - mj))).sum /
    ((returnsMatrix.length : ℚ) - 1)

/-- `returns.cov() * 252`: the annualized covariance matrix. -/
def covMatrixAnnual (returnsMatrix : List (List ℚ)) : List (List ℚ) :=
  (List.range (numAssets returnsMatrix)).map
    (fun i => (List.range (numAssets returnsMatrix)).map
      (fun j => 252 * covEntry returnsMatrix i j))

/-- `np.dot(w, np.dot(M, w))`: the quadratic form `wᵀ M w`. -/
def quadForm (M : List (List ℚ)) (w : List ℚ) : ℚ :=
  dot w (M.map (fun row => dot row w))

/-- `(returns * weights.values).sum(axis=1)`: the realized weighted
portfolio return series. -/
def portfolioReturnsSeries (returnsMatrix : List (List ℚ)) (w : List ℚ) :
    List ℚ :=
  returnsMatrix.map (fun row => dot row w)

/-- `PortfolioModel.calculate_portfolio_return`:
`(returns.mean() * weights).sum() * 252`. -/
def calculatePortfolioReturn (returnsMatrix : List (List ℚ)) (w : List ℚ) : ℚ :=
  dot (colMeans returnsMatrix) w * 252

/-- `PortfolioModel.calculate_portfolio_volatility`:
`sqrt(wᵀ (cov·252) w)`. -/
noncomputable def calculatePortfolioVolatility (returnsMatrix : List (List ℚ))
    (w : List ℚ) : ℝ :=
  Real.sqrt (quadForm (covMatrixAnnual returnsMatrix) w)

/-- `PortfolioModel.calculate_portfolio_sharpe`.  The source guards on
`vol == 0`; for the non-negative variance of a genuine sample covariance
this is exactly `wᵀΣw = 0`, which is how the guard is phrased here. -/
noncomputable def calculatePortfolioSharpe (returnsMatrix : List (List ℚ))
    (w : List ℚ) (riskFreeRate : ℚ) : ℝ :=
  if quadForm (covMatrixAnnual returnsMatrix) w = 0 then 0
  else ((calculatePortfolioReturn returnsMatrix w - riskFreeRate : ℚ) : ℝ) /
    calculatePortfolioVolatility returnsMatrix w

/-- `PortfolioModel.calculate_var`: the `(1-confidence)·100` percentile
of the realized weighted-return series. -/
def calculateVar (returnsMatrix : List (List ℚ)) (w : List ℚ)
    (confidence : ℚ) : Option ℚ :=
  percentile (portfolioReturnsSeries returnsMatrix w) ((1 - confidence) * 100)

/-- `PortfolioModel.calculate_cvar`: the mean of the realized weighted
returns at or below the VaR threshold (`none` models the NaN of a mean
over an empty selection, which cannot occur since the percentile never
lies below the sample minimum). -/
def calculateCVar (returnsMatrix : List (List ℚ)) (w : List ℚ)
    (confidence : ℚ) : Option ℚ :=
  match calculateVar returnsMatrix w confidence with
  | none => none
  | some v => mean? ((portfolioReturnsSeries returnsMatrix w).filter (· ≤ v))

/-! ## `optimization.py` — `PortfolioOptimizer` -/

/-- Construction-time configuration of `PortfolioOptimizer` (the
`risk_free_rate`, `min_weight`, `max_weight` attributes). -/
structure OptimizerConfig : Type where
  riskFreeRate : ℚ
  minWeight : ℚ
  maxWeight : ℚ
  deriving DecidableEq, Repr

/-- `self.expected_returns = returns.mean() * 252`. -/
def expectedReturns (returnsMatrix : List (List ℚ)) : List ℚ :=
  (colMeans returnsMatrix).map (fun m => m * 252)

/-- The triple computed by
`PortfolioOptimizer._calculate_portfolio_metrics`. -/
structure PortfolioMetrics : Type where
  expectedReturn : ℚ
  volatility : ℝ
  sharpeRatio : Option ℝ

/-- `PortfolioOptimizer._calculate_portfolio_metrics`.  Unlike the two
Sharpe computations in `models.py` this helper divides by the volatility
with **no** zero guard, so a zero portfolio variance gives a non-finite
float Sharpe ratio (modelled by `none`), not `0`. -/
noncomputable def calculatePortfolioMetrics (returnsMatrix : List (List ℚ))
    (riskFreeRate : ℚ) (w : List ℚ) : PortfolioMetrics :=
  let ret := dot (expectedReturns returnsMatrix) w
  let varQ := quadForm (covMatrixAnnual returnsMatrix) w
  { expectedReturn := ret
    volatility := Real.sqrt varQ
    sharpeRatio :=
      if varQ = 0 then none
      else some (((ret - riskFreeRate : ℚ) : ℝ) / Real.sqrt varQ) }

/-- The fields of the `scipy.optimize.minimize` result object that the
source reads (`result.x`) or could read (`result.success`, which it
never consults). -/
structure SolverOutcome : Type where
  x : List ℚ
  success : Bool

/-- `OptimizationResult`. -/
structure OptResult : Type where
  weights : List ℚ
  expectedReturn : ℚ
  volatility : ℝ
  sharpeRatio : Option ℝ

/-- The post-processing shared by every `optimize_*` method: package
`result.x` and its metrics, with no convergence check. -/
noncomputable def mkOptResult (returnsMatrix : List (List ℚ))
    (cfg : OptimizerConfig) (x : List ℚ) : OptResult :=
  let m := calculatePortfolioMetrics returnsMatrix cfg.riskFreeRate x
  { weights := x
    expectedReturn := m.expectedReturn
    volatility := m.volatility
    sharpeRatio := m.sharpeRatio }

/-- `PortfolioOptimizer.optimize_max_sharpe`, given the outcome of its
SLSQP call: the solver's `result.x` is packaged unconditionally. -/
noncomputable def optimizeMaxSharpe (returnsMatrix : List (List ℚ))
    (cfg : OptimizerConfig) (res : SolverOutcome) : OptResult :=
  mkOptResult returnsMatrix cfg res.x

/-- `PortfolioOptimizer.optimize_min_volatility`, given the outcome of
its SLSQP call. -/
noncomputable def optimizeMinVolatility (returnsMatrix : List (List ℚ))
    (cfg : OptimizerConfig) (res : SolverOutcome) : OptResult :=
  mkOptResult returnsMatrix cfg res.x

/-- `PortfolioOptimizer.optimize_max_return`, given the outcome of its
SLSQP call. -/
noncomputable def optimizeMaxReturn (returnsMatrix : List (List ℚ))
    (cfg : OptimizerConfig) (res : SolverOutcome) : OptResult :=
  mkOptResult returnsMatrix cfg res.x

/-- `PortfolioOptimizer.optimize_target_return`, given the outcome of
its SLSQP call (the target only shapes the solver's constraints; the
post-processing uses `result.x` alone). -/
noncomputable def optimizeTargetReturn (returnsMatrix : List (List ℚ))
    (cfg : OptimizerConfig) (res : SolverOutcome) : OptResult :=
  mkOptResult returnsMatrix cfg res.x

/-- The weight list `[1/n] * n` built by `equal_weight`. -/
def equalWeightList (n : ℕ) : List ℚ :=
  List.replicate n (1 / (n : ℚ))

/-- `PortfolioOptimizer.equal_weight` (closed form, no solver).  The
configured bounds are not consulted. -/
noncomputable def equalWeight (returnsMatrix : List (List ℚ))
    (cfg : OptimizerConfig) : OptResult :=
  mkOptResult returnsMatrix cfg (equalWeightList (numAssets returnsMatrix))

/-- The weight list built by `cap_weight`: per-asset caps (defaulting a
missing cap to `1.0`) divided by their total.  The configured bounds are
not consulted. -/
def capWeightList (marketCaps : List (Option ℚ)) : List ℚ :=
  let caps := marketCaps.map (fun c => c.getD 1)
  caps.map (fun c => c / caps.sum)

/-- `PortfolioOptimizer.cap_weight`, with the market-cap lookup already
performed per asset in order (`None` = asset missing from the dict). -/
noncomputable def capWeight (returnsMatrix : List (List ℚ))
    (cfg : OptimizerConfig) (marketCaps : List (Option ℚ)) : OptResult :=
  mkOptResult returnsMatrix cfg (capWeightList marketCaps)

/-- `np.linspace(lo, hi, num)`: `num` evenly spaced points from `lo` to
`hi` inclusive. -/
def linspace (lo hi : ℚ) (num : ℕ) : List ℚ :=
  if num = 0 then []
  else if num = 1 then [lo]
  else (List.range num).map
    (fun k : ℕ => lo + (hi - lo) * (k : ℚ) / ((num : ℚ) - 1))

/-- The dictionary returned by `generate_efficient_frontier`: three
aligned arrays and nothing else — in particular no skipped-point
count. -/
structure FrontierOutput : Type where
  volatilities : List ℝ
  frontierReturns : List ℚ
  sharpeRatios : List (Option ℝ)

/-- The swept target returns of `generate_efficient_frontier`:
`np.linspace(min_ret, max_ret, num_portfolios)` where the endpoints are
the expected returns of the min-volatility and max-return solves. -/
noncomputable def frontierTargets (returnsMatrix : List (List ℚ))
    (cfg : OptimizerConfig) (minVolRes maxRetRes : SolverOutcome)
    (numPortfolios : ℕ) : List ℚ :=
  linspace (optimizeMinVolatility returnsMatrix cfg minVolRes).expectedReturn
    (optimizeMaxReturn returnsMatrix cfg maxRetRes).expectedReturn numPortfolios

/-- `PortfolioOptimizer.generate_efficient_frontier`, abstracted over
the three kinds of solver interaction it performs: the `res` outcomes of
the min-volatility and max-return calls fixing the sweep range, and a
per-target oracle `trySolve` whose `none` models the bare `except:
continue` firing (the target's point is silently skipped and the loop
proceeds). -/
noncomputable def generateEfficientFrontier (returnsMatrix : List (List ℚ))
    (cfg : OptimizerConfig) (minVolRes maxRetRes : SolverOutcome)
    (trySolve : ℚ → Option SolverOutcome) (numPortfolios : ℕ) :
    FrontierOutput :=
  let targets := frontierTargets returnsMatrix cfg minVolRes maxRetRes numPortfolios
  let pts := targets.filterMap
    (fun t => (trySolve t).map (optimizeTargetReturn returnsMatrix cfg))
  { volatilities := pts.map (·.volatility)
    frontierReturns := pts.map (·.expectedReturn)
    sharpeRatios := pts.map (·.sharpeRatio) }

/-! ## `metrics.py` — `MetricsCalculator.calculate_monte_carlo_var`

The source calls `np.random.normal(mean, std, simulations)` — the
**implicit global** numpy generator; the method has no seed parameter.
The global generator is modelled as a stream of standard-normal draws
together with a position that each call advances, exactly the hidden
state `np.random` carries between calls. -/

/-- The implicit global `np.random` state: an unbounded stream of
standard-normal draws and the position of the next unconsumed draw. -/
structure RngState : Type where
  stream : ℕ → ℝ
  pos : ℕ

/-- `np.random.normal(mean, std, count)` reading the global state:
consumes the next `count` standard draws, scaled and shifted. -/
noncomputable def npRandomNormal (mean std : ℝ) (count : ℕ) (st : RngState) :
    List ℝ × RngState :=
  ((List.range count).map (fun k => mean + std * st.stream (st.pos + k)),
    ⟨st.stream, st.pos + count⟩)

/-- `returns.std()` (`ddof = 1`): NaN for fewer than two observations
(callers below keep at least two). -/
noncomputable def stdD (xs : List ℚ) : ℝ :=
  Real.sqrt ((sampleVarD xs : ℚ) : ℝ)

/-- `MetricsCalculator.calculate_monte_carlo_var`: draws `simulations`
normal samples from the series' empirical `(mean, std)` via the global
generator, then takes the `(1-confidence)·100` percentile (VaR) and the
mean of the samples at or below it (CVaR).  Returns the pair together
with the advanced global state. -/
noncomputable def calculateMonteCarloVar (returns : List ℚ) (confidence : ℚ)
    (simulations : ℕ) (st : RngState) :
    ((Option ℝ × Option ℝ) × RngState) :=
  let mean : ℝ := ((meanD returns : ℚ) : ℝ)
  let std : ℝ := stdD returns
  let draw := npRandomNormal mean std simulations st
  let simulated := draw.1
  let var := percentile simulated (((1 - confidence : ℚ) : ℝ) * 100)
  let cvar :=
    match var with
    | none => none
    | some v => mean? (simulated.filter (· ≤ v))
  ((var, cvar), draw.2)

/-! ## Supporting lemmas -/


section StatLemmas

variable {α : Type*} [LinearOrderedField α]
variable [DecidableRel ((· ≤ ·) : α → α → Prop)]

omit [DecidableRel ((· ≤ ·) : α → α → Prop)] in
/-- The mean of a non-empty series is bounded by any upper bound on its
entries. -/
theorem mean?_le_of_forall_le {xs : List α} {v : α} (hne : xs ≠ [])
    (h : ∀ x ∈ xs, x ≤ v) : ∃ m, mean? xs = some m ∧ m ≤ v := by
  refine ⟨meanD xs, by simp [mean?, hne], ?_⟩
  have hlen : 0 < (xs.length : α) := by
    have := List.length_pos.mpr hne
    exact_mod_cast this
  have hsum : xs.sum ≤ xs.length • v := List.sum_le_card_nsmul xs v h
  rw [nsmul_eq_mul] at hsum
  rw [meanD, div_le_iff₀ hlen]
  linarith

/-- The mean of the at-or-below-threshold selection of a series is at
most the threshold, and the selection is non-empty as soon as one
element lies at or below it. -/
theorem mean_filter_le_of_exists {xs : List α} {v : α}
    (hmem : ∃ x ∈ xs, x ≤ v) :
    ∃ m, mean? (xs.filter (· ≤ v)) = some m ∧ m ≤ v := by
  obtain ⟨x, hx, hxv⟩ := hmem
  have hne : xs.filter (· ≤ v) ≠ [] :=
    List.ne_nil_of_mem (List.mem_filter.mpr ⟨hx, by simpa using hxv⟩)
  exact mean?_le_of_forall_le hne fun y hy => by
    simpa using (List.mem_filter.mp hy).2

end StatLemmas

section PercentileLemmas

variable {α : Type*} [LinearOrderedField α] [FloorRing α]
variable [DecidableRel ((· ≤ ·) : α → α → Prop)]

/-- `np.percentile` on a non-empty array with `0 ≤ q ≤ 100` is defined,
lies at or above some array element, and is bounded above by the order
statistic just past the interpolation index. -/
theorem percentile_between {xs : List α} {q : α} (hne : xs ≠ [])
    (hq0 : 0 ≤ q) (hq100 : q ≤ 100) :
    ∃ v, percentile xs q = some v ∧
      (∃ x ∈ xs, x ≤ v) ∧
      v ≤ (xs.insertionSort (· ≤ ·)).getD
        (min (⌊q / 100 * (((xs.insertionSort (· ≤ ·)).length : α) - 1)⌋.toNat + 1)
          ((xs.insertionSort (· ≤ ·)).length - 1)) 0 := by
  set s := xs.insertionSort (· ≤ ·) with hs
  have hsorted : s.Sorted (· ≤ ·) := List.sorted_insertionSort _ xs
  have hperm : List.Perm s xs := List.perm_insertionSort _ xs
  have hlen_eq : s.length = xs.length := hperm.length_eq
  have hn1 : 1 ≤ s.length := by
    rw [hlen_eq]
    exact List.length_pos.mpr hne
  have hn1' : (1 : α) ≤ (s.length : α) := by exact_mod_cast hn1
  set pos := q / 100 * ((s.length : α) - 1) with hposdef
  have hpos0 : 0 ≤ pos := by
    apply mul_nonneg (by positivity)
    linarith
  have hposle : pos ≤ (s.length : α) - 1 := by
    have h1 : q / 100 ≤ 1 := (div_le_one (show (0:α) < 100 by norm_num)).mpr hq100
    calc pos ≤ 1 * ((s.length : α) - 1) :=
          mul_le_mul_of_nonneg_right h1 (by linarith)
      _ = (s.length : α) - 1 := one_mul _
  set i := (⌊pos⌋).toNat with hidef
  have hfloor0 : 0 ≤ ⌊pos⌋ := Int.floor_nonneg.mpr hpos0
  have hicast : (i : α) = (⌊pos⌋ : α) := by
    rw [hidef]
    exact_mod_cast Int.toNat_of_nonneg hfloor0
  have hile : (i : α) ≤ pos := by rw [hicast]; exact Int.floor_le pos
  have hgammalt : pos - (i : α) < 1 := by
    rw [hicast]
    have := Int.lt_floor_add_one pos
    linarith
  have hgamma0 : 0 ≤ pos - (i : α) := by linarith
  have hcast : ((s.length : α) - 1) = ((s.length - 1 : ℕ) : α) := by
    rw [Nat.cast_sub hn1]
    norm_num
  have hin : i < s.length := by
    have h2 : pos ≤ ((s.length - 1 : ℕ) : α) := hcast ▸ hposle
    have h3 := Int.floor_le_floor h2
    rw [Int.floor_natCast] at h3
    have h4 : i ≤ s.length - 1 := Int.toNat_le.mpr h3
    omega
  have hgetD : s.getD i 0 = s.get ⟨i, hin⟩ := by
    rw [List.getD_eq_getElem s 0 hin, List.get_eq_getElem]
  have hmemlo : s.get ⟨i, hin⟩ ∈ xs := hperm.mem_iff.mp (s.get_mem _ _)
  -- expose the value of the percentile
  have hval : percentile xs q =
      some (s.getD i 0 + (pos - (i : α)) * (s.getD (i + 1) (s.getD i 0) - s.getD i 0)) := by
    rw [percentile, if_neg (by simp [List.isEmpty_iff, hne])]
  set lo := s.getD i 0 with hlodef
  set hi2 := s.getD (i + 1) lo with hhidef
  have hlohi : lo ≤ hi2 := by
    rcases Nat.lt_or_ge (i + 1) s.length with hlt | hge
    · rw [hhidef, List.getD_eq_getElem s lo hlt]
      rw [hlodef, List.getD_eq_getElem s 0 hin]
      exact hsorted.rel_get_of_lt (show (⟨i, hin⟩ : Fin s.length) < ⟨i+1, hlt⟩ by
        simp [Fin.lt_def])
    · rw [hhidef, List.getD_eq_default s lo hge]
  refine ⟨lo + (pos - (i : α)) * (hi2 - lo), hval, ⟨s.get ⟨i, hin⟩, hmemlo, ?_⟩, ?_⟩
  · rw [← hgetD]
    nlinarith [mul_nonneg hgamma0 (sub_nonneg.mpr hlohi)]
  · rcases Nat.lt_or_ge (i + 1) s.length with hlt | hge
    · have hj : min (i + 1) (s.length - 1) = i + 1 := by omega
      rw [hj]
      have : s.getD (i + 1) 0 = hi2 := by
        rw [hhidef, List.getD_eq_getElem s lo hlt, List.getD_eq_getElem s 0 hlt]
      rw [this]
      nlinarith [mul_nonneg (sub_nonneg.mpr hlohi) (show (0:α) ≤ 1 - (pos - (i : α)) by linarith)]
    · have hieq : i + 1 = s.length := by omega
      have hj : min (i + 1) (s.length - 1) = i := by omega
      rw [hj]
      have hhilo : hi2 = lo := by rw [hhidef]; exact List.getD_eq_default s lo hge
      rw [hhilo]
      simp [hlodef]

end PercentileLemmas

/-! ## Claims -/


/-- C7 (code evaluated at the failing input): the claim says a price
series with fewer than 2 observations returns 0 rather than dividing by
zero years and never raises; on the empty series the code raises
`IndexError` at `prices.iloc[-1]` before reaching its (dead) `years == 0`
guard. -/
theorem claim_C7_empty_series_raises :
    calculateAnnualizedReturn [] = Except.error PyErr.indexError := rfl

/-- C2 counterexample: a non-converged SLSQP outcome (`success = false`,
`x = [0.7]`) is packaged by `optimize_max_sharpe` into an ordinary
`OptimizationResult` carrying the solver's weight vector — no
`SolverNonConvergence` failure is surfaced. -/
theorem claim_C2_counterexample :
    (optimizeMaxSharpe [[1/100],[2/100]] ⟨4/100, 0, 1⟩ ⟨[7/10], false⟩).weights
      = [7/10] := rfl

/-- C2 amended: each of the four solver-backed optimizer operations
returns `result.x` as the weight vector of an ordinary
`OptimizationResult` even when the solver reports non-convergence
(`success = false`); the success flag is never consulted and no failure
is surfaced. -/
theorem claim_C2_amended (returnsMatrix : List (List ℚ)) (cfg : OptimizerConfig)
    (res : SolverOutcome) (_hfail : res.success = false) :
    (optimizeMaxSharpe returnsMatrix cfg res).weights = res.x ∧
    (optimizeMinVolatility returnsMatrix cfg res).weights = res.x ∧
    (optimizeMaxReturn returnsMatrix cfg res).weights = res.x ∧
    (optimizeTargetReturn returnsMatrix cfg res).weights = res.x :=
  ⟨rfl, rfl, rfl, rfl⟩

/-- C2 witness: the amended theorem applied to a concrete two-period
single-asset matrix and a failed solver outcome with `x = [3/5]`. -/
theorem claim_C2_witness :
    (optimizeMaxSharpe [[1/100],[2/100]] ⟨4/100, 0, 1⟩ ⟨[3/5], false⟩).weights = [3/5] :=
  (claim_C2_amended [[1/100],[2/100]] ⟨4/100, 0, 1⟩ ⟨[3/5], false⟩ rfl).1

/-- C1 counterexample: on the constant return matrix `[[1%], [1%]]` with
weights `[1]` the portfolio variance is exactly 0, and
`PortfolioOptimizer._calculate_portfolio_metrics` produces a non-finite
Sharpe ratio (modelled `none`) — not the claimed 0 — because its division
has no zero-volatility guard. -/
theorem claim_C1_counterexample :
    quadForm (covMatrixAnnual [[1/100],[1/100]]) [1] = 0 ∧
    (calculatePortfolioMetrics [[1/100],[1/100]] (4/100) [1]).sharpeRatio = none := by
  constructor
  · norm_num [quadForm, covMatrixAnnual, covEntry, colMeans, numAssets, meanD, dot,
      List.range_succ]
  · norm_num [calculatePortfolioMetrics, quadForm, covMatrixAnnual, covEntry, colMeans,
      numAssets, meanD, dot, List.range_succ]

/-- C1 amended: the zero-volatility guard holds in
`FinancialModel.calculate_sharpe_ratio` (ratio is exactly 0 at zero
volatility) and in `PortfolioModel.calculate_portfolio_sharpe` (ratio is
exactly 0 at zero portfolio variance, matrices with at least two rows);
but `PortfolioOptimizer._calculate_portfolio_metrics` divides
unconditionally, so at zero portfolio variance its Sharpe ratio is the
non-finite float of a division by zero (`none`), not 0. -/
theorem claim_C1_amended :
    (∀ rf ret : ℚ, calculateSharpeRatio rf ret 0 = 0) ∧
    (∀ (R : List (List ℚ)) (w : List ℚ) (rf : ℚ),
      2 ≤ R.length → quadForm (covMatrixAnnual R) w = 0 →
      calculatePortfolioSharpe R w rf = 0) ∧
    (∀ (R : List (List ℚ)) (rf : ℚ) (w : List ℚ),
      quadForm (covMatrixAnnual R) w = 0 →
      (calculatePortfolioMetrics R rf w).sharpeRatio = none) := by
  refine ⟨fun rf ret => by simp [calculateSharpeRatio],
    fun R w rf _ h => ?_, fun R rf w h => ?_⟩
  · simp [calculatePortfolioSharpe, h]
  · simp [calculatePortfolioMetrics, h]

/-- C1 witness: the three parts of the amended theorem at concrete
inputs with zero volatility/variance. -/
theorem claim_C1_witness :
    calculateSharpeRatio (4/100) (1/10) 0 = 0 ∧
    calculatePortfolioSharpe [[1/100],[1/100]] [1] (4/100) = 0 ∧
    (calculatePortfolioMetrics [[2/100],[2/100]] (4/100) [1]).sharpeRatio = none := by
  refine ⟨claim_C1_amended.1 (4/100) (1/10),
    claim_C1_amended.2.1 [[1/100],[1/100]] [1] (4/100) (by norm_num) ?_,
    claim_C1_amended.2.2 [[2/100],[2/100]] (4/100) [1] ?_⟩
  · norm_num [quadForm, covMatrixAnnual, covEntry, colMeans, numAssets, meanD, dot,
      List.range_succ]
  · norm_num [quadForm, covMatrixAnnual, covEntry, colMeans, numAssets, meanD, dot,
      List.range_succ]

/-- C8 counterexample: for the return series `[1/2, 1/2]` (no sub-target
returns at target 0) the Sortino ratio is NaN (`none`), not the claimed
0: the standard deviation of the empty downside selection is NaN, the
`== 0` guard does not fire, and the division propagates NaN. -/
theorem claim_C8_counterexample :
    calculateSortinoRatio (1/10) 0 [1/2, 1/2] ≠ some 0 := by
  have h : calculateSortinoRatio (1/10) 0 [1/2, 1/2] = none := by
    norm_num [calculateSortinoRatio]
  rw [h]
  exact fun hc => Option.noConfusion hc

/-- C8 amended: with at least two sub-target returns the Sortino ratio
is 0 exactly when their sample variance is 0, and otherwise equals the
excess annualized return over the target divided by the annualized
downside standard deviation; with fewer than two sub-target returns
(in particular when none exist) the downside standard deviation is NaN
and the ratio is NaN (`none`), not 0. -/
theorem claim_C8_amended :
    (∀ (annRet target : ℚ) (rs : List ℚ),
      2 ≤ (rs.filter (· < target)).length →
      sampleVarD (rs.filter (· < target)) = 0 →
      calculateSortinoRatio annRet target rs = some 0) ∧
    (∀ (annRet target : ℚ) (rs : List ℚ),
      2 ≤ (rs.filter (· < target)).length →
      sampleVarD (rs.filter (· < target)) ≠ 0 →
      calculateSortinoRatio annRet target rs =
        some (((annRet - target : ℚ) : ℝ) /
          (Real.sqrt (sampleVarD (rs.filter (· < target))) * Real.sqrt 252))) ∧
    (∀ (annRet target : ℚ) (rs : List ℚ),
      (rs.filter (· < target)).length < 2 →
      calculateSortinoRatio annRet target rs = none) := by
  refine ⟨fun annRet target rs h1 h2 => ?_, fun annRet target rs h1 h2 => ?_,
    fun annRet target rs h1 => ?_⟩
  · simp only [calculateSortinoRatio]
    rw [if_neg (by omega), if_pos h2]
  · simp only [calculateSortinoRatio]
    rw [if_neg (by omega), if_neg h2]
  · simp only [calculateSortinoRatio]
    rw [if_pos h1]

/-- C8 witness: the three parts of the amended theorem at concrete
return series. -/
theorem claim_C8_witness :
    calculateSortinoRatio (1/10) 0 [-1, -1] = some 0 ∧
    calculateSortinoRatio (1/10) 0 [-1, -2] =
      some (((1/10 - 0 : ℚ) : ℝ) /
        (Real.sqrt (sampleVarD ([-1, -2].filter (· < (0:ℚ)))) * Real.sqrt 252)) ∧
    calculateSortinoRatio (1/10) 0 [1, 2] = none := by
  refine ⟨claim_C8_amended.1 (1/10) 0 [-1, -1] ?_ ?_,
    claim_C8_amended.2.1 (1/10) 0 [-1, -2] ?_ ?_,
    claim_C8_amended.2.2 (1/10) 0 [1, 2] ?_⟩
  · norm_num [List.filter]
  · norm_num [List.filter, sampleVarD, meanD]
  · norm_num [List.filter]
  · norm_num [List.filter, sampleVarD, meanD]
  · norm_num [List.filter]

/-- C3 counterexample: with feasible configured bounds `[0, 1/2]` over
two assets, `cap_weight` with caps `{A: 9, B: 1}` returns weights
`[9/10, 1/10]` whose first component violates the `max_weight` bound:
the closed-form operations never consult the configured bounds. -/
theorem claim_C3_counterexample :
    (capWeight [[1/100, 2/100],[2/100, 1/100]] ⟨4/100, 0, 1/2⟩ [some 9, some 1]).weights
      = [9/10, 1/10] ∧
    ¬ (∀ x ∈ [(9/10 : ℚ), 1/10], (0:ℚ) ≤ x ∧ x ≤ 1/2) := by
  constructor
  · show capWeightList [some 9, some 1] = [9/10, 1/10]
    norm_num [capWeightList]
  · intro h
    have h2 := (h (9/10) (by simp)).2
    norm_num at h2

/-- C3 amended: `equal_weight` returns exactly `1/n` per asset and its
weights sum to exactly 1, and `cap_weight` weights sum to exactly 1
whenever the cap total is positive; but no returned weight vector is
checked against the configured `[min_weight, max_weight]` bounds (the
solver-backed operations return `result.x` unchecked, and the
closed-form operations ignore the bounds entirely). -/
theorem claim_C3_amended :
    (∀ n : ℕ, 1 ≤ n →
      (equalWeightList n).sum = 1 ∧ ∀ x ∈ equalWeightList n, x = 1/(n:ℚ)) ∧
    (∀ caps : List (Option ℚ), 0 < (caps.map (fun c => c.getD 1)).sum →
      (capWeightList caps).sum = 1) := by
  constructor
  · intro n hn
    have hne : ((n:ℚ)) ≠ 0 :=
      Nat.cast_ne_zero.mpr (Nat.one_le_iff_ne_zero.mp hn)
    constructor
    · rw [equalWeightList, List.sum_replicate, nsmul_eq_mul]
      field_simp
    · intro x hx
      exact (List.eq_of_mem_replicate hx)
  · intro caps hS
    rw [capWeightList]
    have hSne : (caps.map (fun c => c.getD 1)).sum ≠ 0 := ne_of_gt hS
    simp only [div_eq_mul_inv]
    rw [List.sum_map_mul_right]
    simp only [Function.comp_def, List.map_map]
    exact mul_inv_cancel₀ hSne

/-- C3 witness: the amended theorem at `n = 4` equal weights and at
caps `[2, 2]`. -/
theorem claim_C3_witness :
    ((equalWeightList 4).sum = 1 ∧ ∀ x ∈ equalWeightList 4, x = 1/(4:ℚ)) ∧
    (capWeightList [some 2, some 2]).sum = 1 :=
  ⟨claim_C3_amended.1 4 (by norm_num),
    claim_C3_amended.2 [some 2, some 2] (by norm_num)⟩


/-- A running `min` fold never exceeds its initial accumulator. -/
theorem foldl_min_le (l : List ℚ) (a : ℚ) : l.foldl min a ≤ a := by
  induction l generalizing a with
  | nil => simp
  | cons y ys ih => exact le_trans (ih (min a y)) (min_le_left a y)

/-- A running `min` fold keeps its initial accumulator when every list
element is at least it. -/
theorem foldl_min_of_le (l : List ℚ) (a : ℚ) (h : ∀ x ∈ l, a ≤ x) :
    l.foldl min a = a := by
  induction l generalizing a with
  | nil => rfl
  | cons y ys ih =>
      have hay : a ≤ y := h y (by simp)
      rw [List.foldl_cons, min_eq_left hay]
      exact ih a fun x hx => h x (by simp [hx])

/-- The running maximum of a non-decreasing list dominated below by the
incoming prefix maximum is the list itself. -/
theorem runningMaxFrom_of_chain :
    ∀ (l : List ℚ) (m : ℚ), (∀ hd ∈ l.head?, m ≤ hd) →
      List.Chain' (· ≤ ·) l → runningMaxFrom m l = l := by
  intro l
  induction l with
  | nil => intro m _ _; rfl
  | cons x xs ih =>
      intro m hm hchain
      have hmx : m ≤ x := hm x (by simp)
      rw [runningMaxFrom, max_eq_right hmx]
      congr 1
      exact ih x (fun hd hhd => (List.chain'_cons'.mp hchain).1 hd hhd)
        (List.chain'_cons'.mp hchain).2

/-- Shape of `calculate_max_drawdown` on a series whose first cumulative
value is non-zero: the head drawdown is 0 and the result is the fold of
`min` over the remaining defined drawdowns starting from 0. -/
theorem maxDrawdown_cons (r : ℚ) (rs : List ℚ) (h : 1 + r ≠ 0) :
    calculateMaxDrawdown (r :: rs) =
      some ((List.filterMap id
        (List.zipWith (fun c m => if m = 0 then none else some ((c - m) / m))
          ((cumprodOnePlus rs).map (fun c => (1 + r) * c))
          (runningMaxFrom (1 + r) ((cumprodOnePlus rs).map (fun c => (1 + r) * c))))).foldl
        min 0) := by
  simp only [calculateMaxDrawdown, cumprodOnePlus, runningMax, List.zipWith_cons_cons]
  rw [if_neg h]
  simp only [sub_self, zero_div, List.filterMap_cons]
  rfl

/-- C9 counterexample: the non-empty return series `[-1]` drives the
cumulative product to 0, making every drawdown entry the float `0/0`
(NaN) and the reported max drawdown NaN (`none`) — for which the claimed
`max_drawdown ≤ 0` fails. -/
theorem claim_C9_counterexample : calculateMaxDrawdown [-1] = none := by
  norm_num [calculateMaxDrawdown, cumprodOnePlus, runningMax, runningMaxFrom, minD]

/-- C9 amended: for every non-empty return series whose first return is
not exactly -1, the max drawdown is a defined value `d ≤ 0`; and it is
exactly 0 whenever in addition the cumulative-return path is
monotonically non-decreasing.  (A first return of -1 zeroes the whole
cumulative path and the result is NaN, per the counterexample.) -/
theorem claim_C9_amended :
    (∀ (r : ℚ) (rs : List ℚ), r ≠ -1 →
      ∃ d, calculateMaxDrawdown (r :: rs) = some d ∧ d ≤ 0) ∧
    (∀ (r : ℚ) (rs : List ℚ), r ≠ -1 →
      List.Chain' (· ≤ ·) (cumprodOnePlus (r :: rs)) →
      calculateMaxDrawdown (r :: rs) = some 0) := by
  constructor
  · intro r rs hr
    have h1r : 1 + r ≠ 0 := fun h0 => hr (by linarith [eq_neg_of_add_eq_zero_right h0])
    exact ⟨_, maxDrawdown_cons r rs h1r, foldl_min_le _ 0⟩
  · intro r rs hr hchain
    have h1r : 1 + r ≠ 0 := fun h0 => hr (by linarith [eq_neg_of_add_eq_zero_right h0])
    rw [maxDrawdown_cons r rs h1r]
    have hchain' : List.Chain' (· ≤ ·) ((cumprodOnePlus rs).map (fun c => (1 + r) * c)) := by
      have : cumprodOnePlus (r :: rs) =
          (1 + r) :: (cumprodOnePlus rs).map (fun c => (1 + r) * c) := rfl
      rw [this] at hchain
      exact (List.chain'_cons'.mp hchain).2
    have hrm : runningMaxFrom (1 + r) ((cumprodOnePlus rs).map (fun c => (1 + r) * c)) =
        (cumprodOnePlus rs).map (fun c => (1 + r) * c) := by
      apply runningMaxFrom_of_chain _ _ ?_ hchain'
      intro hd hhd
      have : cumprodOnePlus (r :: rs) =
          (1 + r) :: (cumprodOnePlus rs).map (fun c => (1 + r) * c) := rfl
      rw [this] at hchain
      exact (List.chain'_cons'.mp hchain).1 hd hhd
    rw [hrm]
    congr 1
    rw [List.zipWith_same]
    apply foldl_min_of_le
    intro x hx
    obtain ⟨o, ho, hoid⟩ := List.mem_filterMap.mp hx
    obtain ⟨c, _, hc⟩ := List.mem_map.mp ho
    by_cases hc0 : c = 0
    · rw [← hc] at hoid
      simp [hc0] at hoid
    · rw [← hc] at hoid
      simp only [if_neg hc0, id, sub_self, zero_div] at hoid
      rw [← Option.some.inj hoid]


/-- C9 witness: the two parts of the amended theorem on the concrete
series `[1/10, -1/20]` and the non-decreasing `[1/10, 1/10]`. -/
theorem claim_C9_witness :
    (∃ d, calculateMaxDrawdown (1/10 :: [-1/20]) = some d ∧ d ≤ 0) ∧
    calculateMaxDrawdown (1/10 :: [1/10]) = some 0 :=
  ⟨claim_C9_amended.1 (1/10) [-1/20] (by norm_num),
   claim_C9_amended.2 (1/10) [1/10] (by norm_num)
     (by norm_num [cumprodOnePlus, List.chain'_cons, List.chain'_singleton])⟩

/-- Kept points plus dropped points account for every input of a
`filterMap`. -/
theorem length_filterMap_add_countP_none {α β : Type*} (f : α → Option β)
    (l : List α) :
    (l.filterMap f).length + l.countP (fun a => (f a).isNone) = l.length := by
  induction l with
  | nil => simp
  | cons x xs ih =>
      cases hfx : f x <;>
        simp only [List.filterMap_cons, hfx, List.countP_cons, List.length_cons] <;>
        simp [hfx, ih] <;> omega

/-- `np.linspace` returns exactly `num` points. -/
theorem linspace_length (lo hi : ℚ) (num : ℕ) :
    (linspace lo hi num).length = num := by
  rw [linspace]
  split
  · simp_all
  · split
    · simp_all
    · simp

/-- Closed form of the `k`-th `np.linspace` point for `num ≥ 2`. -/
theorem linspace_getD (lo hi : ℚ) (num : ℕ) (hnum : 2 ≤ num) (k : ℕ)
    (hk : k < num) :
    (linspace lo hi num).getD k 0 = lo + (hi - lo) * (k : ℚ) / ((num : ℚ) - 1) := by
  rw [linspace, if_neg (by omega), if_neg (by omega)]
  rw [List.getD_eq_getElem _ _ (by simpa using hk), List.getElem_map,
    List.getElem_range]

/-- C5 amended: `generate_efficient_frontier` sweeps exactly `N` target
returns, evenly spaced from the min-volatility expected return to the
max-return expected return inclusive (first element `lo`, last `hi`,
constant consecutive difference `(hi-lo)/(N-1)` for `N ≥ 2`); a
per-point solver failure is skipped without aborting and the number of
returned points plus the number of skipped targets equals `N`.  The
skipped count itself is not part of the returned dictionary — the caller
can only infer it as `N` minus the returned length (see the
counterexample). -/
theorem claim_C5_amended :
    (∀ (lo hi : ℚ) (num : ℕ), (linspace lo hi num).length = num) ∧
    (∀ (lo hi : ℚ) (num : ℕ), 2 ≤ num →
      (linspace lo hi num).getD 0 0 = lo ∧
      (linspace lo hi num).getD (num - 1) 0 = hi ∧
      (∀ k : ℕ, k + 1 < num →
        (linspace lo hi num).getD (k + 1) 0 - (linspace lo hi num).getD k 0
          = (hi - lo) / ((num : ℚ) - 1))) ∧
    (∀ (R : List (List ℚ)) (cfg : OptimizerConfig)
        (minVolRes maxRetRes : SolverOutcome)
        (trySolve : ℚ → Option SolverOutcome) (num : ℕ),
      (generateEfficientFrontier R cfg minVolRes maxRetRes trySolve num).frontierReturns.length
        + (frontierTargets R cfg minVolRes maxRetRes num).countP
            (fun t => (trySolve t).isNone) = num) := by
  refine ⟨linspace_length, ?_, ?_⟩
  · intro lo hi num hnum
    have hden : ((num : ℚ) - 1) ≠ 0 := by
      have : (2 : ℚ) ≤ (num : ℚ) := by exact_mod_cast hnum
      linarith
    refine ⟨?_, ?_, ?_⟩
    · rw [linspace_getD lo hi num hnum 0 (by omega)]
      simp
    · rw [linspace_getD lo hi num hnum (num - 1) (by omega)]
      have hcast : ((num - 1 : ℕ) : ℚ) = (num : ℚ) - 1 := by
        rw [Nat.cast_sub (by omega)]
        norm_num
      rw [hcast]
      field_simp
    · intro k hk
      rw [linspace_getD lo hi num hnum (k + 1) (by omega),
        linspace_getD lo hi num hnum k (by omega)]
      push_cast
      field_simp
      ring
  · intro R cfg minVolRes maxRetRes trySolve num
    have key := length_filterMap_add_countP_none
      (fun t => (trySolve t).map (optimizeTargetReturn R cfg))
      (frontierTargets R cfg minVolRes maxRetRes num)
    have hiso : ∀ t : ℚ, ((trySolve t).map (optimizeTargetReturn R cfg)).isNone
        = (trySolve t).isNone := by
      intro t
      cases trySolve t <;> rfl
    simp only [hiso] at key
    have hout : (generateEfficientFrontier R cfg minVolRes maxRetRes trySolve
        num).frontierReturns.length =
        ((frontierTargets R cfg minVolRes maxRetRes num).filterMap
          (fun t => (trySolve t).map (optimizeTargetReturn R cfg))).length := by
      simp [generateEfficientFrontier]
    rw [hout, key, frontierTargets, linspace_length]


/-- C5 witness: the amended theorem at `linspace 0 1 3` and at a
concrete frontier run whose per-point solver always fails. -/
theorem claim_C5_witness :
    ((linspace 0 1 3).getD 0 0 = 0 ∧ (linspace 0 1 3).getD (3 - 1) 0 = 1 ∧
      (∀ k : ℕ, k + 1 < 3 →
        (linspace 0 1 3).getD (k + 1) 0 - (linspace 0 1 3).getD k 0
          = (1 - 0) / ((3 : ℚ) - 1))) ∧
    (generateEfficientFrontier [[1/100],[3/100]] ⟨4/100, 0, 1⟩ ⟨[0], true⟩
        ⟨[1], true⟩ (fun _ => none) 5).frontierReturns.length
      + (frontierTargets [[1/100],[3/100]] ⟨4/100, 0, 1⟩ ⟨[0], true⟩
          ⟨[1], true⟩ 5).countP
          (fun t => ((fun _ : ℚ => (none : Option SolverOutcome)) t).isNone)
        = 5 :=
  ⟨claim_C5_amended.2.1 0 1 3 (by norm_num),
   claim_C5_amended.2.2 [[1/100],[3/100]] ⟨4/100, 0, 1⟩ ⟨[0], true⟩ ⟨[1], true⟩
     (fun _ => none) 5⟩

/-- C5 counterexample to the claimed skipped-count reporting: a 3-point
sweep whose middle target fails returns a dictionary identical to that
of a 2-point sweep with no failures — the output carries no skipped
count (1 versus 0 here) anywhere. -/
theorem claim_C5_counterexample :
    (generateEfficientFrontier [[1/100],[3/100]] ⟨4/100, 0, 1⟩ ⟨[0], true⟩
        ⟨[1], true⟩ (fun t => if t = 63/25 then none else some ⟨[1], true⟩) 3
      = generateEfficientFrontier [[1/100],[3/100]] ⟨4/100, 0, 1⟩ ⟨[0], true⟩
        ⟨[1], true⟩ (fun _ => some ⟨[1], true⟩) 2) ∧
    (frontierTargets [[1/100],[3/100]] ⟨4/100, 0, 1⟩ ⟨[0], true⟩ ⟨[1], true⟩ 3).countP
        (fun t => (if t = 63/25 then (none : Option SolverOutcome)
          else some ⟨[1], true⟩).isNone) = 1 ∧
    (frontierTargets [[1/100],[3/100]] ⟨4/100, 0, 1⟩ ⟨[0], true⟩ ⟨[1], true⟩ 2).countP
        (fun _ => (some (⟨[1], true⟩ : SolverOutcome)).isNone) = 0 := by
  refine ⟨?_, ?_, ?_⟩
  · norm_num [generateEfficientFrontier, frontierTargets, linspace,
      optimizeMinVolatility, optimizeMaxReturn, optimizeTargetReturn, mkOptResult,
      calculatePortfolioMetrics, expectedReturns, colMeans, numAssets, meanD, dot,
      List.range_succ, List.filterMap_cons]
  · norm_num [frontierTargets, linspace, optimizeMinVolatility, optimizeMaxReturn,
      mkOptResult, calculatePortfolioMetrics, expectedReturns, colMeans, numAssets,
      meanD, dot, List.range_succ, List.countP_cons]
  · norm_num [frontierTargets, linspace, optimizeMinVolatility, optimizeMaxReturn,
      mkOptResult, calculatePortfolioMetrics, expectedReturns, colMeans, numAssets,
      meanD, dot, List.range_succ, List.countP_cons]


/-- C6 counterexample: for the weighted return series
`[-10%, 0%, 1%, 2%, 3%]` at confidence 95%, `calculate_var` is -2/25 and
`calculate_cvar` is -1/10, and the claimed `var ≤ cvar` fails: the CVaR,
a mean of values at or below the VaR, can only lie at or below it. -/
theorem claim_C6_counterexample :
    calculateVar [[-1/10],[0],[1/100],[2/100],[3/100]] [1] (19/20) = some (-2/25) ∧
    calculateCVar [[-1/10],[0],[1/100],[2/100],[3/100]] [1] (19/20) = some (-1/10) ∧
    ¬ ((-2/25 : ℚ) ≤ -1/10) := by
  refine ⟨?_, ?_, by norm_num⟩
  · norm_num [calculateVar, portfolioReturnsSeries, dot, percentile,
      List.insertionSort, List.orderedInsert]
  · norm_num [calculateCVar, calculateVar, portfolioReturnsSeries, dot, percentile,
      List.insertionSort, List.orderedInsert, mean?, meanD, List.filter]

/-- C6 amended (inequality direction corrected): for every return
matrix, weight vector and confidence level in `[0, 1]` whose weighted
return series is non-empty and has a nontrivial left tail (the order
statistic just past the VaR interpolation index is at or below 0),
`calculate_cvar ≤ calculate_var ≤ 0`. -/
theorem claim_C6_amended (R : List (List ℚ)) (w : List ℚ) (c : ℚ)
    (hne : portfolioReturnsSeries R w ≠ []) (hc0 : 0 ≤ c) (hc1 : c ≤ 1)
    (htail : ((portfolioReturnsSeries R w).insertionSort (· ≤ ·)).getD
        (min (⌊(1 - c) * 100 / 100 *
            ((((portfolioReturnsSeries R w).insertionSort (· ≤ ·)).length : ℚ) - 1)⌋.toNat + 1)
          (((portfolioReturnsSeries R w).insertionSort (· ≤ ·)).length - 1)) 0 ≤ 0) :
    ∃ v cv, calculateVar R w c = some v ∧ calculateCVar R w c = some cv ∧
      cv ≤ v ∧ v ≤ 0 := by
  have hq0 : 0 ≤ (1 - c) * 100 := by nlinarith
  have hq100 : (1 - c) * 100 ≤ 100 := by nlinarith
  obtain ⟨v, hv, hmem, hub⟩ := percentile_between hne hq0 hq100
  have hvar : calculateVar R w c = some v := hv
  obtain ⟨m, hm, hmv⟩ := mean_filter_le_of_exists hmem
  refine ⟨v, m, hvar, ?_, hmv, le_trans hub htail⟩
  simp only [calculateCVar, hvar]
  exact hm

/-- C6 witness: the amended theorem at the concrete five-period series
used by the counterexample. -/
theorem claim_C6_witness :
    ∃ v cv, calculateVar [[-1/10],[0],[1/100],[2/100],[3/100]] [1] (19/20) = some v ∧
      calculateCVar [[-1/10],[0],[1/100],[2/100],[3/100]] [1] (19/20) = some cv ∧
      cv ≤ v ∧ v ≤ 0 := by
  apply claim_C6_amended
  · exact fun h => List.noConfusion h
  · norm_num
  · norm_num
  · norm_num [portfolioReturnsSeries, dot, List.insertionSort, List.orderedInsert]

/-- C10: in both implementations — historical
(`PortfolioModel.calculate_cvar` versus `calculate_var`) and Monte Carlo
(`MetricsCalculator.calculate_monte_carlo_var`) — whenever at least one
realized (resp. simulated) value lies at or below the computed VaR, the
computed CVaR, being the mean of the values at or below the VaR,
satisfies `CVaR ≤ VaR`. -/
theorem claim_C10:
    (∀ (R : List (List ℚ)) (w : List ℚ) (c v : ℚ),
      calculateVar R w c = some v →
      (∃ x ∈ portfolioReturnsSeries R w, x ≤ v) →
      ∃ cv, calculateCVar R w c = some cv ∧ cv ≤ v) ∧
    (∀ (returns : List ℚ) (c : ℚ) (sims : ℕ) (st : RngState) (v : ℝ),
      ((calculateMonteCarloVar returns c sims st).1).1 = some v →
      (∃ s ∈ (npRandomNormal ((meanD returns : ℚ) : ℝ) (stdD returns) sims st).1,
        s ≤ v) →
      ∃ cv, ((calculateMonteCarloVar returns c sims st).1).2 = some cv ∧ cv ≤ v) := by
  constructor
  · intro R w c v hvar hmem
    obtain ⟨m, hm, hmv⟩ := mean_filter_le_of_exists hmem
    refine ⟨m, ?_, hmv⟩
    simp only [calculateCVar, hvar]
    exact hm
  · intro returns c sims st v hvar hmem
    obtain ⟨m, hm, hmv⟩ := mean_filter_le_of_exists hmem
    refine ⟨m, ?_, hmv⟩
    simp only [calculateMonteCarloVar] at hvar ⊢
    simp only [hvar]
    exact hm

/-- C10 witness: both parts at concrete inputs — the five-period
historical series at 95% confidence, and a one-simulation seeded-stream
Monte Carlo run. -/
theorem claim_C10_witness :
    (∃ cv, calculateCVar [[-1/10],[0],[1/100],[2/100],[3/100]] [1] (19/20) = some cv ∧
      cv ≤ -2/25) ∧
    (∃ cv, ((calculateMonteCarloVar [0,1,2] 1 1 ⟨fun n => (n : ℝ), 0⟩).1).2 = some cv ∧
      cv ≤ 1) := by
  constructor
  · apply claim_C10.1 [[-1/10],[0],[1/100],[2/100],[3/100]] [1] (19/20) (-2/25)
    · norm_num [calculateVar, portfolioReturnsSeries, dot, percentile,
        List.insertionSort, List.orderedInsert]
    · exact ⟨-1/10, by norm_num [portfolioReturnsSeries, dot], by norm_num⟩
  · apply claim_C10.2 [0,1,2] 1 1 ⟨fun n => (n : ℝ), 0⟩ 1
    · norm_num [calculateMonteCarloVar, npRandomNormal, stdD, sampleVarD, meanD,
        percentile, List.insertionSort, List.orderedInsert, List.range_succ,
        Real.sqrt_one]
    · refine ⟨1, ?_, le_refl 1⟩
      norm_num [npRandomNormal, List.range_succ, meanD]

/-- C4 counterexample: `calculate_monte_carlo_var` has no seed
parameter and reads the implicit global generator, so two successive
calls with identical inputs (returns `[0,1,2]`, confidence 1, one
simulation) return different VaR values — the hidden position advanced
between the calls. -/
theorem claim_C4_counterexample :
    ((calculateMonteCarloVar [0,1,2] 1 1 ⟨fun n => (n : ℝ), 0⟩).1).1 ≠
      ((calculateMonteCarloVar [0,1,2] 1 1
        ((calculateMonteCarloVar [0,1,2] 1 1 ⟨fun n => (n : ℝ), 0⟩).2)).1).1 := by
  have h1 : ((calculateMonteCarloVar [0,1,2] 1 1 ⟨fun n => (n : ℝ), 0⟩).1).1
      = some 1 := by
    norm_num [calculateMonteCarloVar, npRandomNormal, stdD, sampleVarD, meanD,
      percentile, List.insertionSort, List.orderedInsert, List.range_succ,
      Real.sqrt_one]
  have hst : (calculateMonteCarloVar [0,1,2] 1 1 ⟨fun n => (n : ℝ), 0⟩).2
      = ⟨fun n => (n : ℝ), 1⟩ := rfl
  have h2 : ((calculateMonteCarloVar [0,1,2] 1 1
      (⟨fun n => (n : ℝ), 1⟩ : RngState)).1).1 = some 2 := by
    norm_num [calculateMonteCarloVar, npRandomNormal, stdD, sampleVarD, meanD,
      percentile, List.insertionSort, List.orderedInsert, List.range_succ,
      Real.sqrt_one]
  rw [h1, hst, h2]
  norm_num

/-- C4 amended: the Monte Carlo result is a deterministic function of
the inputs and of the global generator's stream window at its current
position — two states agreeing on that window give bit-identical
(VaR, CVaR) — and each call advances the hidden global position by the
simulation count, which is what makes back-to-back calls differ. -/
theorem claim_C4_amended (returns : List ℚ) (c : ℚ) (sims : ℕ)
    (st st' : RngState) (hpos : st.pos = st'.pos)
    (hwin : ∀ k, k < sims → st.stream (st.pos + k) = st'.stream (st'.pos + k)) :
    (calculateMonteCarloVar returns c sims st).1
      = (calculateMonteCarloVar returns c sims st').1 ∧
    (calculateMonteCarloVar returns c sims st).2.pos = st.pos + sims := by
  have hsamples :
      (npRandomNormal ((meanD returns : ℚ) : ℝ) (stdD returns) sims st).1
        = (npRandomNormal ((meanD returns : ℚ) : ℝ) (stdD returns) sims st').1 := by
    simp only [npRandomNormal]
    apply List.map_congr_left
    intro k hk
    rw [hpos, ← hwin k (List.mem_range.mp hk), hpos]
  constructor
  · simp only [calculateMonteCarloVar, hsamples]
  · simp only [calculateMonteCarloVar, npRandomNormal]

/-- C4 witness: the amended theorem at a concrete state (constant
stream at position 5, two simulations). -/
theorem claim_C4_witness :
    (calculateMonteCarloVar [0,1,2] (19/20) 2 ⟨fun _ => 0, 5⟩).1
      = (calculateMonteCarloVar [0,1,2] (19/20) 2 ⟨fun _ => 0, 5⟩).1 ∧
    (calculateMonteCarloVar [0,1,2] (19/20) 2 ⟨fun _ => 0, 5⟩).2.pos = 5 + 2 :=
  claim_C4_amended [0,1,2] (19/20) 2 ⟨fun _ => 0, 5⟩ ⟨fun _ => 0, 5⟩ rfl
    (fun _ _ => rfl)

end FinModel
